import Mathlib

/-!
Verification of the Expense-Management approval workflow.

The definitions below are a shallow embedding of the TypeScript backend
(src/backend-ts), chiefly ApprovalEngine (services/approval.ts),
ExpenseController (controllers/expense.ts) and CurrencyService, plus the
legacy JavaScript ApprovalStep model (backend/src/models/approvalStep.js)
where a claim cites it.  The SQLite schema stores every status and rule
type as TEXT, so statuses and rule types are modelled as `String`.
Monetary amounts (REAL columns) are modelled as `ℚ`; DATETIME values as
`Int` milliseconds since the epoch.  Database tables are lists kept in
creation order (rows are only ever appended), which is the order the
store returns rows when no ordering is requested.
-/

namespace ExpenseMgmt

/-- A row of the `users` table (id, company_id, role, manager_id, is_active). -/
structure User where
  id : String
  companyId : String
  role : String
  managerId : Option String
  isActive : Bool
deriving DecidableEq

/-- A row of the `companies` table (only the fields the engine reads). -/
structure Company where
  id : String
  defaultCurrency : String
deriving DecidableEq

/-- A row of the `approval_rules` table.  `type`, `thresholdPercent`,
`specificApproverId`, `appliesToCategory`, `minAmount`, `maxAmount`,
`priority`, `isActive` are exactly the Prisma model fields. -/
structure ApprovalRule where
  id : String
  companyId : String
  name : String
  type : String
  thresholdPercent : Option Int
  specificApproverId : Option String
  appliesToCategory : Option String
  minAmount : Option ℚ
  maxAmount : Option ℚ
  priority : Int
  isActive : Bool
deriving DecidableEq

/-- A row of the `approval_steps` table. -/
structure ApprovalStep where
  id : String
  expenseId : String
  approverId : String
  sequenceIndex : Int
  status : String
  actionBy : Option String
  actionAt : Option Int
  comments : Option String
deriving DecidableEq

/-- A row of the `expenses` table (the fields the workflow engine touches). -/
structure Expense where
  id : String
  companyId : String
  userId : String
  originalCurrency : String
  originalAmount : ℚ
  convertedAmount : Option ℚ
  conversionRate : Option ℚ
  rateTimestamp : Option Int
  category : String
  status : String
  submittedAt : Option Int
deriving DecidableEq

/-- A row of the `exchange_rates` cache table. -/
structure ExchangeRate where
  baseCurrency : String
  targetCurrency : String
  rate : ℚ
  timestamp : Int
deriving DecidableEq

/-- The persistent store: each table as a list of rows in creation order. -/
structure DB where
  companies : List Company
  users : List User
  expenses : List Expense
  approvalSteps : List ApprovalStep
  approvalRules : List ApprovalRule
  exchangeRates : List ExchangeRate
deriving DecidableEq

/-- The `ApprovalContext` interface of services/approval.ts. -/
structure ApprovalContext where
  category : String
  amount : ℚ
  userId : String
deriving DecidableEq

/-- The Prisma `where` clause built by `ApprovalEngine.getApplicableRules`:
company, `isActive: true`, an `OR` over `appliesToCategory` that is added
only when `context.category` is truthy (in JavaScript the empty string is
falsy, so an empty category disables the category filter entirely), and
optional `minAmount`/`maxAmount` bounds. -/
def ruleMatches (companyId : String) (ctx : ApprovalContext) (r : ApprovalRule) : Bool :=
  decide (r.companyId = companyId) && r.isActive &&
  (if ctx.category = "" then true
   else decide (r.appliesToCategory = some ctx.category ∨ r.appliesToCategory = none)) &&
  (match r.minAmount with
   | none => true
   | some m => decide (m ≤ ctx.amount)) &&
  (match r.maxAmount with
   | none => true
   | some m => decide (ctx.amount ≤ m))

/-- Source: `ApprovalEngine.getApplicableRules`: `prisma.approvalRule.findMany`
with the clause above.  With no `orderBy`, rows come back in stored
(creation) order. -/
def getApplicableRules (db : DB) (companyId : String) (ctx : ApprovalContext) :
    List ApprovalRule :=
  db.approvalRules.filter (ruleMatches companyId ctx)

/-- One insertion step of a stable descending sort on `priority`.  An
element being inserted came earlier in the input list than everything
already inserted, so on equal priority it is placed first. -/
def insertByPriority (r : ApprovalRule) : List ApprovalRule → List ApprovalRule
  | [] => [r]
  | s :: rest =>
    if s.priority ≤ r.priority then r :: s :: rest else s :: insertByPriority r rest

/-- Source: `rules.sort((a, b) => b.priority - a.priority)`: ECMAScript sort is
stable, so rules of equal priority keep the order the store returned
them in (creation order in this model). -/
def sortByPriorityDesc (rules : List ApprovalRule) : List ApprovalRule :=
  rules.foldr insertByPriority []

/-- Source: `prisma.user.findUnique({ where: { id } })`. -/
def findUser (users : List User) (uid : String) : Option User :=
  users.find? (fun u => decide (u.id = uid))

/-- The `manager` relation included with a user: the row whose id is the
user's `managerId`, if any. -/
def managerOf (users : List User) (u : User) : Option User :=
  u.managerId.bind (findUser users)

/-- The while-loop of `ApprovalEngine.getManagerHierarchy`:
`while (currentUser?.manager) { managers.push(manager); currentUser := manager }`.
The source loop has no visited-set and no depth bound, so it is modelled
with explicit fuel: `none` means the loop has not terminated within
`fuel` iterations. -/
def managerWalk (users : List User) : Nat → Option User → Option (List User)
  | _, none => some []
  | 0, some u => if (managerOf users u).isSome then none else some []
  | fuel + 1, some u =>
    match managerOf users u with
    | none => some []
    | some m => (managerWalk users fuel (some m)).map (fun rest => m :: rest)

/-- Source: `ApprovalEngine.getManagerHierarchy(userId)`, fuel-indexed. -/
def getManagerHierarchy (users : List User) (fuel : Nat) (userId : String) :
    Option (List User) :=
  managerWalk users fuel (findUser users userId)

/-- Source: `ApprovalEngine.getAllManagers(companyId)`: every active MANAGER or
ADMIN of the company. -/
def getAllManagers (users : List User) (companyId : String) : List User :=
  users.filter (fun u =>
    decide (u.companyId = companyId) &&
    (decide (u.role = "MANAGER") || decide (u.role = "ADMIN")) &&
    u.isActive)

/-- A freshly inserted PENDING approval step.  The database generates the
row id; it is modelled deterministically from the unique
(expense_id, approver_id) key of the `approval_steps` table. -/
def mkStep (expenseId approverId : String) (idx : Int) : ApprovalStep :=
  { id := expenseId ++ ":" ++ approverId
    expenseId := expenseId
    approverId := approverId
    sequenceIndex := idx
    status := "PENDING"
    actionBy := none
    actionAt := none
    comments := none }

/-- Source: `createSequentialApproval`: one step per manager in the chain,
`sequenceIndex` = position.  `none` when the manager walk does not
terminate within the fuel. -/
def createSequentialSteps (db : DB) (fuel : Nat) (expenseId : String)
    (ctx : ApprovalContext) : Option (List ApprovalStep) :=
  (getManagerHierarchy db.users fuel ctx.userId).map (fun approvers =>
    approvers.enum.map (fun p => mkStep expenseId p.2.id (Int.ofNat p.1)))

/-- Source: `createParallelApproval`: one step per company manager/admin, all at
`sequenceIndex` 0.  The submitter is not excluded. -/
def createParallelSteps (db : DB) (rule : ApprovalRule) (expenseId : String) :
    List ApprovalStep :=
  (getAllManagers db.users rule.companyId).map (fun a => mkStep expenseId a.id 0)

/-- Source: `createSpecificApproval`: throws when the rule has no specific approver. -/
def createSpecificSteps (rule : ApprovalRule) (expenseId : String) :
    Except String (List ApprovalStep) :=
  match rule.specificApproverId with
  | none => .error ("Specific approver not defined in rule")
  | some aid => .ok [mkStep expenseId aid 0]

/-- Source: `createHybridApproval`: the specific step (when configured) at index 0
plus the parallel cohort at index 1, skipping the specific approver. -/
def createHybridSteps (db : DB) (rule : ApprovalRule) (expenseId : String) :
    List ApprovalStep :=
  (match rule.specificApproverId with
   | some aid => [mkStep expenseId aid 0]
   | none => []) ++
  (getAllManagers db.users rule.companyId).filterMap (fun a =>
    if rule.specificApproverId = some a.id then none else some (mkStep expenseId a.id 1))

/-- Source: `ApprovalEngine.applyRule`: dispatch on the rule type string.
`none` = the sequential manager walk diverged; `some (.error m)` = a
thrown error; `some (.ok steps)` = the created steps. -/
def applyRule (db : DB) (fuel : Nat) (expenseId : String) (rule : ApprovalRule)
    (ctx : ApprovalContext) : Option (Except String (List ApprovalStep)) :=
  if rule.type = "SEQUENTIAL" then
    (createSequentialSteps db fuel expenseId ctx).map .ok
  else if rule.type = "PARALLEL" then
    some (.ok (createParallelSteps db rule expenseId))
  else if rule.type = "PERCENTAGE" then
    some (.ok (createParallelSteps db rule expenseId))
  else if rule.type = "SPECIFIC" then
    some (createSpecificSteps rule expenseId)
  else if rule.type = "HYBRID" then
    some (.ok (createHybridSteps db rule expenseId))
  else
    some (.error ("Unknown approval rule type: " ++ rule.type))

/-- Source: `ApprovalEngine.createApprovalSteps`: fetch applicable rules; zero
rules means zero steps (the source merely logs a warning and returns);
otherwise sort by priority descending and apply the first rule. -/
def createApprovalSteps (db : DB) (fuel : Nat) (expenseId companyId : String)
    (ctx : ApprovalContext) : Option (Except String (List ApprovalStep)) :=
  let rules := getApplicableRules db companyId ctx
  if rules.isEmpty then some (.ok [])
  else
    match sortByPriorityDesc rules with
    | [] => some (.ok [])
    | rule :: _ => applyRule db fuel expenseId rule ctx

/-- Number of steps whose status equals `st` (the
`approvalSteps.filter(s => s.status === st).length` idiom). -/
def countByStatus (steps : List ApprovalStep) (st : String) : Nat :=
  (steps.filter (fun s => decide (s.status = st))).length

/-- Source: `rule.thresholdPercent || dflt`: in JavaScript both `null` and `0`
are falsy, so an unset or zero threshold falls back to the default. -/
def effectiveThreshold (t : Option Int) (dflt : Int) : Int :=
  match t with
  | none => dflt
  | some v => if v = 0 then dflt else v

/-- Source: `ApprovalEngine.evaluatePercentage`:
`(approvedSteps / totalSteps) * 100 >= threshold`.  With zero steps the
source computes `0 / 0 = NaN`, and `NaN >= threshold` is false, so the
function returns WAITING_APPROVAL; the first branch makes that explicit. -/
def evaluatePercentage (steps : List ApprovalStep) (threshold : Int) : String :=
  let totalSteps := steps.length
  let approvedSteps := countByStatus steps ("APPROVED")
  if totalSteps = 0 then ("WAITING_APPROVAL")
  else if (threshold : ℚ) ≤ (approvedSteps : ℚ) / (totalSteps : ℚ) * 100 then ("APPROVED")
  else ("WAITING_APPROVAL")

/-- One insertion step of a stable ascending sort on `sequenceIndex`. -/
def insertBySeq (s : ApprovalStep) : List ApprovalStep → List ApprovalStep
  | [] => [s]
  | t :: rest =>
    if s.sequenceIndex ≤ t.sequenceIndex then s :: t :: rest else t :: insertBySeq s rest

/-- Source: `steps.sort((a, b) => a.sequenceIndex - b.sequenceIndex)` (stable). -/
def sortBySeqAsc (steps : List ApprovalStep) : List ApprovalStep :=
  steps.foldr insertBySeq []

/-- The scan inside `evaluateSequential`: the first PENDING step halts at
WAITING_APPROVAL, a REJECTED step halts at REJECTED, any other status
(the loop tests only those two literals) lets the scan continue. -/
def seqScan : List ApprovalStep → String
  | [] => "APPROVED"
  | s :: rest =>
    if s.status = "PENDING" then ("WAITING_APPROVAL")
    else if s.status = "REJECTED" then ("REJECTED")
    else seqScan rest

/-- Source: `ApprovalEngine.evaluateSequential`. -/
def evaluateSequential (steps : List ApprovalStep) : String :=
  seqScan (sortBySeqAsc steps)

/-- Source: `ApprovalEngine.evaluateSpecific`: any APPROVED step approves. -/
def evaluateSpecific (steps : List ApprovalStep) : String :=
  if 0 < countByStatus steps ("APPROVED") then ("APPROVED") else ("WAITING_APPROVAL")

/-- Source: `ApprovalEngine.evaluateHybrid`: if the step of the rule's specific
approver is APPROVED, approve instantly; otherwise fall through to the
percentage evaluation over the whole step list (the source passes
`approvalSteps` unfiltered) with default threshold 60. -/
def evaluateHybrid (steps : List ApprovalStep) (rule : ApprovalRule) : String :=
  match steps.find? (fun s => decide (rule.specificApproverId = some s.approverId)) with
  | some s =>
    if s.status = "APPROVED" then ("APPROVED")
    else evaluatePercentage steps (effectiveThreshold rule.thresholdPercent 60)
  | none => evaluatePercentage steps (effectiveThreshold rule.thresholdPercent 60)

/-- Source: `ApprovalEngine.evaluateApprovalStatus`: any REJECTED step rejects
before the rule type is even inspected; then dispatch on the type, with
the source's default branch returning the expense's current status. -/
def evaluateApprovalStatus (expenseStatus : String) (rule : ApprovalRule)
    (steps : List ApprovalStep) : String :=
  if 0 < countByStatus steps ("REJECTED") then ("REJECTED")
  else if rule.type = "SEQUENTIAL" then evaluateSequential steps
  else if rule.type = "PARALLEL" ∨ rule.type = "PERCENTAGE" then
    evaluatePercentage steps (effectiveThreshold rule.thresholdPercent 50)
  else if rule.type = "SPECIFIC" then evaluateSpecific steps
  else if rule.type = "HYBRID" then evaluateHybrid steps rule
  else expenseStatus

/-- Write a new status onto the expense row(s) with the given id
(`prisma.expense.update({ where: { id }, data: { status } })`). -/
def updateExpenseStatus (db : DB) (expenseId newStatus : String) : DB :=
  { db with expenses := db.expenses.map (fun e =>
      if e.id = expenseId then { e with status := newStatus } else e) }

/-- The steps of one expense (`where: { expenseId }`). -/
def stepsOf (db : DB) (expenseId : String) : List ApprovalStep :=
  db.approvalSteps.filter (fun s => decide (s.expenseId = expenseId))

/-- The persistence step after evaluation: the source's
`prisma.expense.update` calls sit exactly in the evaluator branches that
return APPROVED or REJECTED, so the expense row is rewritten iff the
evaluation is not WAITING_APPROVAL (writing the returned status back is
extensionally identical because the source's default branch returns the
status already stored). -/
def persistEvaluation (db : DB) (expenseId st : String) : DB × String :=
  if st = "WAITING_APPROVAL" then (db, st)
  else (updateExpenseStatus db expenseId st, st)

/-- Source: `ApprovalEngine.processApproval`: refetch the expense with its steps
(ordered by `sequenceIndex`), rederive the governing rule exactly as
`createApprovalSteps` did, evaluate, and persist the result. -/
def processApproval (db : DB) (expenseId : String) : Except String (DB × String) :=
  match db.expenses.find? (fun e => decide (e.id = expenseId)) with
  | none => .error ("Expense not found")
  | some expense =>
    match sortByPriorityDesc (getApplicableRules db expense.companyId
        { category := expense.category, amount := expense.convertedAmount.getD 0
          userId := expense.userId }) with
    | [] => .ok (db, expense.status)
    | rule :: _ =>
      .ok (persistEvaluation db expenseId
        (evaluateApprovalStatus expense.status rule (sortBySeqAsc (stepsOf db expenseId))))

/-- The request body's `action` field, Joi-validated to approve/reject. -/
inductive Decision where
  | approve
  | reject
deriving DecidableEq

/-- Source: `action.toUpperCase()` — note this produces "APPROVE"/"REJECT", not
the "APPROVED"/"REJECTED" values the evaluator tests for; the TEXT
column accepts either. -/
def decisionUpper : Decision → String
  | .approve => "APPROVE"
  | .reject => "REJECT"

/-- The distinct failures of the expense controller, one constructor per
`AppError`/thrown message. -/
inductive AppErr where
  | notFound
  | notOwner
  | notDraft
  | conversionUnavailable
  | notWaiting
  | notAuthorized
  | missingCompany
  | engine (msg : String)
deriving DecidableEq

/-- The read-and-check phase of `ExpenseController.approveExpense`
(everything before the first write): find the expense, require the
caller's company, require status WAITING_APPROVAL, and find a PENDING
step assigned to the caller.  An actor with no PENDING step — whether a
stranger or the step's approver after the step was decided — gets the
same 403 `notAuthorized` error. -/
def approveCheck (db : DB) (companyId userId expenseId : String) :
    Except AppErr ApprovalStep :=
  match db.expenses.find? (fun e => decide (e.id = expenseId)) with
  | none => .error .notFound
  | some expense =>
    if expense.companyId ≠ companyId then .error .notFound
    else if expense.status ≠ "WAITING_APPROVAL" then .error .notWaiting
    else
      match (sortBySeqAsc (stepsOf db expenseId)).find?
          (fun s => decide (s.approverId = userId) && decide (s.status = "PENDING")) with
      | none => .error .notAuthorized
      | some step => .ok step

/-- The write phase of `ExpenseController.approveExpense`:
`prisma.approvalStep.update({ where: { id }, data: { status: action.toUpperCase(), ... } })`.
The update is keyed by the step id only — it carries no
`status = PENDING` guard. -/
def approveWrite (db : DB) (stepId : String) (action : Decision) (userId : String)
    (comments : Option String) (now : Int) : DB :=
  { db with approvalSteps := db.approvalSteps.map (fun s =>
      if s.id = stepId then
        { s with status := decisionUpper action
                 actionBy := some userId
                 actionAt := some now
                 comments := comments }
      else s) }

/-- Source: `ExpenseController.approveExpense`: check, write, then run
`ApprovalEngine.processApproval`.  Returns the final store alongside the
result; every precondition failure returns before any write. -/
def approveExpense (db : DB) (companyId userId expenseId : String) (action : Decision)
    (comments : Option String) (now : Int) : DB × Except AppErr String :=
  match approveCheck db companyId userId expenseId with
  | .error err => (db, .error err)
  | .ok step =>
    match processApproval (approveWrite db step.id action userId comments now) expenseId with
    | .error msg => (approveWrite db step.id action userId comments now, .error (.engine msg))
    | .ok (db2, finalStatus) => (db2, .ok finalStatus)

/-- Source: `CurrencyService.convertCurrency`'s result shape. -/
structure ConversionResult where
  convertedAmount : ℚ
  rate : ℚ
  timestamp : Int
deriving DecidableEq

/-- Source: `Number((x).toFixed(2))`: round to two decimal places. -/
def round2 (q : ℚ) : ℚ :=
  ((round (q * 100) : ℤ) : ℚ) / 100

/-- Source: `CurrencyService.getCachedRate`: `findFirst` over entries of the pair
with `timestamp >= now - 1h`, ordered by timestamp descending — i.e. the
fresh entry with the greatest timestamp (the earliest such row on ties). -/
def getCachedRate (rates : List ExchangeRate) (now : Int)
    (fromCurrency toCurrency : String) : Option ExchangeRate :=
  (rates.filter (fun e =>
      decide (e.baseCurrency = fromCurrency) &&
      decide (e.targetCurrency = toCurrency) &&
      decide (now - 60 * 60 * 1000 ≤ e.timestamp))).foldl
    (fun best e =>
      match best with
      | none => some e
      | some b => if b.timestamp < e.timestamp then some e else some b)
    none

/-- Source: `CurrencyService.convertCurrency`: reuse a fresh cached rate, else
fetch the spot rate (`spotRate = none` models a failed external call,
surfaced as the thrown "Currency conversion service unavailable") and
append the new rate to the cache.  Returns the result together with the
possibly-extended cache. -/
def convertCurrency (rates : List ExchangeRate) (now : Int)
    (fromCurrency toCurrency : String) (amount : ℚ) (spotRate : Option ℚ) :
    Except Unit (ConversionResult × List ExchangeRate) :=
  match getCachedRate rates now fromCurrency toCurrency with
  | some cached =>
    .ok ({ convertedAmount := round2 (amount * cached.rate)
           rate := cached.rate
           timestamp := cached.timestamp }, rates)
  | none =>
    match spotRate with
    | none => .error ()
    | some r =>
      .ok ({ convertedAmount := round2 (amount * r), rate := r, timestamp := now },
           rates ++ [{ baseCurrency := fromCurrency, targetCurrency := toCurrency
                       rate := r, timestamp := now }])

/-- The expense row as written by the DRAFT to WAITING_APPROVAL update of
`submitExpense` (conversion fields, status, submittedAt). -/
def submittedExpense (e : Expense) (now : Int) (convAmt rate : ℚ) (ts : Int) : Expense :=
  { e with convertedAmount := some convAmt
           conversionRate := some rate
           rateTimestamp := some ts
           status := "WAITING_APPROVAL"
           submittedAt := some now }

/-- The store immediately after `submitExpense`'s expense update has
committed: the (possibly extended) rate cache plus the rewritten expense
row.  This write happens before approval-step creation and there is no
surrounding transaction. -/
def submitWrite (db : DB) (eid : String) (upd : Expense)
    (newRates : List ExchangeRate) : DB :=
  { db with exchangeRates := newRates
            expenses := db.expenses.map (fun x => if x.id = eid then upd else x) }

/-- Source: `ExpenseController.submitExpense`.  Order of effects exactly as in the
source: the ownership/company/DRAFT guards throw first; the currency
conversion runs next (a failure aborts with nothing written); then the
expense row is updated to WAITING_APPROVAL with the conversion fields —
this write commits before `ApprovalEngine.createApprovalSteps` runs, so
an engine failure leaves it in place.  `none` means the request never
completes (the sequential manager walk diverged). -/
def submitExpense (db : DB) (fuel : Nat) (companyId userId expenseId : String)
    (now : Int) (spotRate : Option ℚ) : Option (DB × Except AppErr Expense) :=
  match db.expenses.find? (fun e => decide (e.id = expenseId)) with
  | none => some (db, .error .notFound)
  | some expense =>
    if expense.companyId ≠ companyId then some (db, .error .notFound)
    else if expense.userId ≠ userId then some (db, .error .notOwner)
    else if expense.status ≠ "DRAFT" then some (db, .error .notDraft)
    else
      match db.companies.find? (fun c => decide (c.id = expense.companyId)) with
      | none => some (db, .error .missingCompany)
      | some company =>
        match (if expense.originalCurrency = company.defaultCurrency then
                 Except.ok (expense.originalAmount, (1 : ℚ), now, db.exchangeRates)
               else
                 (convertCurrency db.exchangeRates now expense.originalCurrency
                     company.defaultCurrency expense.originalAmount spotRate).map
                   (fun p => (p.1.convertedAmount, p.1.rate, p.1.timestamp, p.2))) with
        | .error _ => some (db, .error .conversionUnavailable)
        | .ok (convAmt, rate, ts, newRates) =>
          match createApprovalSteps
              (submitWrite db expenseId (submittedExpense expense now convAmt rate ts) newRates)
              fuel expenseId companyId
              { category := expense.category, amount := convAmt, userId := userId } with
          | none => none
          | some (.error msg) =>
            some (submitWrite db expenseId (submittedExpense expense now convAmt rate ts) newRates,
              .error (.engine msg))
          | some (.ok steps) =>
            some ({ submitWrite db expenseId (submittedExpense expense now convAmt rate ts) newRates
                      with approvalSteps := db.approvalSteps ++ steps },
              .ok (submittedExpense expense now convAmt rate ts))

/-- Source: `ApprovalStep.updateStatus` of the legacy JavaScript backend
(backend/src/models/approvalStep.js):
`UPDATE approval_steps SET status = $1, action_by = $2, action_time = NOW(), comments = $3 WHERE id = $4`.
The WHERE clause matches on the row id only — there is no
`AND status = 'pending'` guard, so the write commits whatever the row's
current status is. -/
def jsUpdateStatus (steps : List ApprovalStep) (stepId status actionBy : String)
    (comments : Option String) (now : Int) : List ApprovalStep :=
  steps.map (fun s =>
    if s.id = stepId then
      { s with status := status, actionBy := some actionBy
               actionAt := some now, comments := comments }
    else s)

/-- Modelled from the spec's words, for comparison with `evaluateHybrid`
only: "HYBRID: if the specific step is APPROVED ⇒ APPROVED instantly;
otherwise fall through to the PERCENTAGE rule over the remaining steps"
— the percentage computed over the non-specific steps only. -/
def specHybridFallback (steps : List ApprovalStep) (rule : ApprovalRule) : String :=
  match steps.find? (fun s => decide (rule.specificApproverId = some s.approverId)) with
  | some s =>
    if s.status = "APPROVED" then ("APPROVED")
    else
      evaluatePercentage
        (steps.filter (fun t => decide (rule.specificApproverId ≠ some t.approverId)))
        (effectiveThreshold rule.thresholdPercent 60)
  | none =>
    evaluatePercentage
      (steps.filter (fun t => decide (rule.specificApproverId ≠ some t.approverId)))
      (effectiveThreshold rule.thresholdPercent 60)

theorem countByStatus_pos (steps : List ApprovalStep) (st : String) (s : ApprovalStep)
    (hs : s ∈ steps) (h : s.status = st) : 0 < countByStatus steps st := by
  have hmem : s ∈ steps.filter (fun t => decide (t.status = st)) :=
    List.mem_filter.mpr ⟨hs, by simp [h]⟩
  exact List.length_pos_of_mem hmem

theorem countByStatus_eq_zero (steps : List ApprovalStep) (st : String)
    (h : ∀ s ∈ steps, s.status ≠ st) : countByStatus steps st = 0 := by
  unfold countByStatus
  rw [List.length_eq_zero, List.filter_eq_nil_iff]
  intro s hs
  simp [h s hs]

theorem percentage_condition_iff (a t : Nat) (thr : Int) (ht : t ≠ 0) :
    ((thr : ℚ) ≤ (a : ℚ) / (t : ℚ) * 100) ↔ thr * (t : Int) ≤ (a : Int) * 100 := by
  have ht' : (0 : ℚ) < (t : ℚ) := by exact_mod_cast Nat.pos_of_ne_zero ht
  rw [div_mul_eq_mul_div, le_div_iff₀ ht']
  constructor <;> intro h <;> exact_mod_cast h

theorem evaluatePercentage_int (steps : List ApprovalStep) (threshold : Int) :
    evaluatePercentage steps threshold =
      (if steps.length = 0 then ("WAITING_APPROVAL")
       else if threshold * (steps.length : Int) ≤ (countByStatus steps ("APPROVED") : Int) * 100
       then ("APPROVED") else ("WAITING_APPROVAL")) := by
  unfold evaluatePercentage
  by_cases h : steps.length = 0
  · simp [h]
  · rw [if_neg h, if_neg h,
      if_congr (percentage_condition_iff (countByStatus steps ("APPROVED"))
        steps.length threshold h) rfl rfl]

/-- Claim C2: for every rule (any `type` string, in particular SPECIFIC and
HYBRID) and every step snapshot containing a REJECTED step, the evaluator
returns REJECTED — the rejection check runs before the rule type is inspected,
so a specific-approver approval elsewhere in the snapshot cannot override it. -/
theorem c2_rejection_short_circuits (expenseStatus : String) (rule : ApprovalRule)
    (steps : List ApprovalStep) (s : ApprovalStep) (hs : s ∈ steps)
    (hr : s.status = "REJECTED") :
    evaluateApprovalStatus expenseStatus rule steps = "REJECTED" := by
  unfold evaluateApprovalStatus
  rw [if_pos (countByStatus_pos steps ("REJECTED") s hs hr)]

def c2Rule : ApprovalRule :=
  { id := "r2", companyId := "c1", name := "Hybrid rule", type := "HYBRID"
    thresholdPercent := some 60, specificApproverId := some "boss"
    appliesToCategory := none, minAmount := none, maxAmount := none
    priority := 1, isActive := true }

def c2BossStep : ApprovalStep :=
  { id := "s1", expenseId := "e1", approverId := "boss", sequenceIndex := 0
    status := "APPROVED", actionBy := some "boss", actionAt := some 1, comments := none }

def c2RejStep : ApprovalStep :=
  { id := "s2", expenseId := "e1", approverId := "emp", sequenceIndex := 1
    status := "REJECTED", actionBy := some "emp", actionAt := some 2, comments := none }

/-- Witness for C2 at a HYBRID snapshot where the specific approver has
already approved but another step is rejected: evaluation is REJECTED anyway. -/
theorem c2_rejection_short_circuits_witness :
    evaluateApprovalStatus ("WAITING_APPROVAL") c2Rule [c2BossStep, c2RejStep] = "REJECTED" :=
  c2_rejection_short_circuits ("WAITING_APPROVAL") c2Rule [c2BossStep, c2RejStep]
    c2RejStep (by decide) rfl

def c3Rule : ApprovalRule :=
  { id := "r3", companyId := "c1", name := "Pct rule", type := "PERCENTAGE"
    thresholdPercent := some 60, specificApproverId := none
    appliesToCategory := none, minAmount := none, maxAmount := none
    priority := 1, isActive := true }

/-- Counterexample to C3's zero-step clause: under a PERCENTAGE rule with
threshold 60, an empty step snapshot evaluates to WAITING_APPROVAL, not to the
claimed APPROVED — the source computes `0 / 0 = NaN` and `NaN >= 60` is false. -/
theorem c3_zero_steps_do_not_approve :
    evaluateApprovalStatus ("WAITING_APPROVAL") c3Rule [] = "WAITING_APPROVAL" ∧
    evaluateApprovalStatus ("WAITING_APPROVAL") c3Rule [] ≠ "APPROVED" := by
  refine ⟨by decide, by decide⟩

/-- Claim C3 (amended): for every PARALLEL or PERCENTAGE rule and nonempty
snapshot with no rejected step, evaluation is APPROVED iff
approvedCount/totalCount*100 meets the effective threshold (thresholdPercent
when set and nonzero, else 50 — for both types), and WAITING_APPROVAL
otherwise; an empty snapshot evaluates to WAITING_APPROVAL (NaN comparison). -/
theorem c3_percentage_threshold (expenseStatus : String) (rule : ApprovalRule)
    (steps : List ApprovalStep)
    (ht : rule.type = "PARALLEL" ∨ rule.type = "PERCENTAGE")
    (hnr : ∀ s ∈ steps, s.status ≠ "REJECTED") (hne : steps ≠ []) :
    evaluateApprovalStatus expenseStatus rule steps =
      (if (effectiveThreshold rule.thresholdPercent 50 : ℚ) ≤
          (countByStatus steps ("APPROVED") : ℚ) / (steps.length : ℚ) * 100
       then ("APPROVED") else ("WAITING_APPROVAL")) := by
  have h0 : countByStatus steps ("REJECTED") = 0 := countByStatus_eq_zero _ _ hnr
  have hlen : steps.length ≠ 0 := fun h => hne (List.length_eq_zero.mp h)
  rcases ht with ht | ht <;>
    simp [evaluateApprovalStatus, evaluatePercentage, ht, h0, hlen]

def c3Step (i : Nat) (st : String) : ApprovalStep :=
  { id := "s" ++ toString i, expenseId := "e1", approverId := "m" ++ toString i
    sequenceIndex := 0, status := st, actionBy := none, actionAt := none
    comments := none }

def c3StepsApproved : List ApprovalStep :=
  [c3Step 1 ("APPROVED"), c3Step 2 ("APPROVED"), c3Step 3 ("APPROVED"),
   c3Step 4 ("PENDING"), c3Step 5 ("PENDING")]

def c3StepsWaiting : List ApprovalStep :=
  [c3Step 1 ("APPROVED"), c3Step 2 ("APPROVED"), c3Step 3 ("PENDING"),
   c3Step 4 ("PENDING"), c3Step 5 ("PENDING")]

/-- Witness for C3 (amended): threshold 60 with 5 steps — 3 approvals (60%)
give APPROVED, 2 approvals (40%) give WAITING_APPROVAL. -/
theorem c3_percentage_threshold_witness :
    evaluateApprovalStatus ("WAITING_APPROVAL") c3Rule c3StepsApproved = "APPROVED" ∧
    evaluateApprovalStatus ("WAITING_APPROVAL") c3Rule c3StepsWaiting = "WAITING_APPROVAL" := by
  constructor
  · rw [c3_percentage_threshold ("WAITING_APPROVAL") c3Rule c3StepsApproved
      (Or.inr rfl) (by decide) (by decide),
      if_pos ((percentage_condition_iff _ _ _ (by decide)).mpr (by decide))]
  · rw [c3_percentage_threshold ("WAITING_APPROVAL") c3Rule c3StepsWaiting
      (Or.inr rfl) (by decide) (by decide),
      if_neg (fun hc => absurd ((percentage_condition_iff _ _ _ (by decide)).mp hc)
        (by decide))]

def c4Rule : ApprovalRule :=
  { id := "r4", companyId := "c1", name := "Hybrid rule", type := "HYBRID"
    thresholdPercent := none, specificApproverId := some "boss"
    appliesToCategory := none, minAmount := none, maxAmount := none
    priority := 1, isActive := true }

def c4Steps : List ApprovalStep :=
  [{ id := "s0", expenseId := "e1", approverId := "boss", sequenceIndex := 0
     status := "PENDING", actionBy := none, actionAt := none, comments := none },
   { id := "s1", expenseId := "e1", approverId := "m1", sequenceIndex := 1
     status := "APPROVED", actionBy := some "m1", actionAt := some 1, comments := none },
   { id := "s2", expenseId := "e1", approverId := "m2", sequenceIndex := 1
     status := "APPROVED", actionBy := some "m2", actionAt := some 2, comments := none },
   { id := "s3", expenseId := "e1", approverId := "m3", sequenceIndex := 1
     status := "PENDING", actionBy := none, actionAt := none, comments := none }]

/-- Counterexample to C4: HYBRID with pending specific step, default threshold
60, and 2 of the 3 non-specific steps approved.  The source evaluates the
percentage over all 4 steps (2/4 = 50% < 60 ⇒ WAITING_APPROVAL), while the
claimed evaluation over the remaining non-specific steps only would give
2/3 ≈ 66.7% ≥ 60 ⇒ APPROVED. -/
theorem c4_hybrid_counts_specific_step :
    evaluateApprovalStatus ("WAITING_APPROVAL") c4Rule c4Steps = "WAITING_APPROVAL" ∧
    specHybridFallback c4Steps c4Rule = "APPROVED" := by
  constructor
  · rw [show evaluateApprovalStatus ("WAITING_APPROVAL") c4Rule c4Steps =
        evaluatePercentage c4Steps 60 from rfl, evaluatePercentage_int]
    decide
  · rw [show specHybridFallback c4Steps c4Rule =
        evaluatePercentage
          (c4Steps.filter (fun t => decide (c4Rule.specificApproverId ≠ some t.approverId)))
          60 from rfl, evaluatePercentage_int]
    decide

/-- Claim C4 (amended): for every HYBRID rule and snapshot with no rejected
step — if the specific approver's step is APPROVED the result is APPROVED
immediately; otherwise (the specific step pending, or absent) the result is
the PERCENTAGE evaluation over the whole snapshot, specific step included,
with threshold defaulting to 60 when unset. -/
theorem c4_hybrid_evaluation (expenseStatus : String) (rule : ApprovalRule)
    (steps : List ApprovalStep) (ht : rule.type = "HYBRID")
    (hnr : ∀ s ∈ steps, s.status ≠ "REJECTED") :
    (∀ s, steps.find? (fun t => decide (rule.specificApproverId = some t.approverId)) = some s →
        s.status = "APPROVED" →
        evaluateApprovalStatus expenseStatus rule steps = "APPROVED") ∧
    (∀ s, steps.find? (fun t => decide (rule.specificApproverId = some t.approverId)) = some s →
        s.status ≠ "APPROVED" →
        evaluateApprovalStatus expenseStatus rule steps =
          evaluatePercentage steps (effectiveThreshold rule.thresholdPercent 60)) ∧
    (steps.find? (fun t => decide (rule.specificApproverId = some t.approverId)) = none →
        evaluateApprovalStatus expenseStatus rule steps =
          evaluatePercentage steps (effectiveThreshold rule.thresholdPercent 60)) := by
  have h0 : countByStatus steps ("REJECTED") = 0 := countByStatus_eq_zero _ _ hnr
  refine ⟨?_, ?_, ?_⟩
  · intro s hfind happ
    simp [evaluateApprovalStatus, evaluateHybrid, ht, h0, hfind, happ]
  · intro s hfind happ
    simp [evaluateApprovalStatus, evaluateHybrid, ht, h0, hfind, happ]
  · intro hfind
    simp [evaluateApprovalStatus, evaluateHybrid, ht, h0, hfind]

def c4ApprovedSteps : List ApprovalStep :=
  [{ id := "s0", expenseId := "e1", approverId := "boss", sequenceIndex := 0
     status := "APPROVED", actionBy := some "boss", actionAt := some 1, comments := none },
   { id := "s1", expenseId := "e1", approverId := "m1", sequenceIndex := 1
     status := "PENDING", actionBy := none, actionAt := none, comments := none }]

/-- Witness for C4 (amended): the specific approver's approval approves the
HYBRID workflow instantly, and a pending specific step makes the result equal
the percentage evaluation of the full snapshot. -/
theorem c4_hybrid_evaluation_witness :
    evaluateApprovalStatus ("WAITING_APPROVAL") c4Rule c4ApprovedSteps = "APPROVED" ∧
    evaluateApprovalStatus ("WAITING_APPROVAL") c4Rule c4Steps =
      evaluatePercentage c4Steps (effectiveThreshold c4Rule.thresholdPercent 60) := by
  constructor
  · exact (c4_hybrid_evaluation ("WAITING_APPROVAL") c4Rule c4ApprovedSteps rfl
      (by decide)).1 (c4ApprovedSteps.get ⟨0, by decide⟩) (by decide) rfl
  · exact (c4_hybrid_evaluation ("WAITING_APPROVAL") c4Rule c4Steps rfl
      (by decide)).2.1 (c4Steps.get ⟨0, by decide⟩) (by decide) (by decide)

theorem insertByPriority_ne_nil (r : ApprovalRule) (l : List ApprovalRule) :
    insertByPriority r l ≠ [] := by
  cases l with
  | nil => simp [insertByPriority]
  | cons s rest =>
    unfold insertByPriority
    split <;> simp

theorem sortByPriorityDesc_eq_nil (l : List ApprovalRule) :
    sortByPriorityDesc l = [] ↔ l = [] := by
  cases l with
  | nil => simp [sortByPriorityDesc]
  | cons x xs =>
    simp only [sortByPriorityDesc, List.foldr_cons]
    exact ⟨fun h => absurd h (insertByPriority_ne_nil x _), fun h => absurd h (by simp)⟩

theorem sortByPriorityDesc_head (l : List ApprovalRule) (g : ApprovalRule)
    (gs : List ApprovalRule) (h : sortByPriorityDesc l = g :: gs) :
    g ∈ l ∧ (∀ r ∈ l, r.priority ≤ g.priority) ∧
    ∃ pre post, l = pre ++ g :: post ∧ ∀ r ∈ pre, r.priority < g.priority := by
  induction l generalizing g gs with
  | nil => simp [sortByPriorityDesc] at h
  | cons x xs ih =>
    rw [show sortByPriorityDesc (x :: xs) = insertByPriority x (sortByPriorityDesc xs)
      from rfl] at h
    cases hxs : sortByPriorityDesc xs with
    | nil =>
      have hnil : xs = [] := (sortByPriorityDesc_eq_nil xs).mp hxs
      rw [hxs] at h
      unfold insertByPriority at h
      injection h with h1 h2
      subst h1
      subst hnil
      refine ⟨List.mem_cons_self x [], ?_, [], [], rfl, by simp⟩
      intro r hr
      rcases List.mem_singleton.mp hr with rfl
      exact le_refl _
    | cons m t =>
      obtain ⟨hmem, hmax, pre, post, hdecomp, hpre⟩ := ih m t hxs
      rw [hxs] at h
      unfold insertByPriority at h
      by_cases hcmp : m.priority ≤ x.priority
      · rw [if_pos hcmp] at h
        injection h with h1 h2
        subst h1
        refine ⟨List.mem_cons_self x xs, ?_, [], xs, rfl, by simp⟩
        intro r hr
        rcases List.mem_cons.mp hr with rfl | hr
        · exact le_refl _
        · exact (hmax r hr).trans hcmp
      · rw [if_neg hcmp] at h
        injection h with h1 h2
        subst h1
        have hlt : x.priority < m.priority := lt_of_not_le hcmp
        refine ⟨List.mem_cons_of_mem x hmem, ?_, x :: pre, post,
          by rw [hdecomp, List.cons_append], ?_⟩
        · intro r hr
          rcases List.mem_cons.mp hr with rfl | hr
          · exact le_of_lt hlt
          · exact hmax r hr
        · intro r hr
          rcases List.mem_cons.mp hr with rfl | hr
          · exact hlt
          · exact hpre r hr

/-- Claim C5 (amended): for every company, nonempty category and amount,
matching returns only active rules of the company whose category is unset or
equal and whose optional bounds contain the amount; the governing rule (the
head after the stable priority-descending sort) is a candidate of maximal
priority, earliest in creation order among equal-priority candidates.  (With
an empty category the source skips the category filter entirely.) -/
theorem c5_rule_matching (db : DB) (companyId : String) (ctx : ApprovalContext)
    (hcat : ctx.category ≠ "") :
    (∀ r ∈ getApplicableRules db companyId ctx,
        r.companyId = companyId ∧ r.isActive = true ∧
        (r.appliesToCategory = none ∨ r.appliesToCategory = some ctx.category) ∧
        (∀ m, r.minAmount = some m → m ≤ ctx.amount) ∧
        (∀ m, r.maxAmount = some m → ctx.amount ≤ m)) ∧
    (∀ g gs, sortByPriorityDesc (getApplicableRules db companyId ctx) = g :: gs →
        g ∈ getApplicableRules db companyId ctx ∧
        (∀ r ∈ getApplicableRules db companyId ctx, r.priority ≤ g.priority) ∧
        ∃ pre post, getApplicableRules db companyId ctx = pre ++ g :: post ∧
          ∀ r ∈ pre, r.priority < g.priority) := by
  constructor
  · intro r hr
    obtain ⟨-, hmatch⟩ := List.mem_filter.mp hr
    unfold ruleMatches at hmatch
    rw [if_neg hcat] at hmatch
    simp only [Bool.and_eq_true, decide_eq_true_eq] at hmatch
    obtain ⟨⟨⟨⟨hcid, hact⟩, hcat2⟩, hmin⟩, hmax⟩ := hmatch
    refine ⟨hcid, hact, hcat2.symm, ?_, ?_⟩
    · intro m hm
      rw [hm] at hmin
      simpa using hmin
    · intro m hm
      rw [hm] at hmax
      simpa using hmax
  · intro g gs hsort
    exact sortByPriorityDesc_head _ g gs hsort

def c5TravelRule : ApprovalRule :=
  { id := "r5", companyId := "c1", name := "Travel only", type := "PARALLEL"
    thresholdPercent := none, specificApproverId := none
    appliesToCategory := some "Travel", minAmount := none, maxAmount := none
    priority := 1, isActive := true }

def c5Db : DB :=
  { companies := [], users := [], expenses := [], approvalSteps := []
    approvalRules := [c5TravelRule], exchangeRates := [] }

/-- Counterexample to C5: for an expense whose category is the empty string,
the source skips the category filter (the empty string is falsy in
JavaScript), so a rule restricted to category Travel — set, and different
from the expense's category — is still returned as applicable. -/
theorem c5_empty_category_skips_filter :
    getApplicableRules c5Db ("c1") { category := "", amount := 50, userId := "u1" } =
      [c5TravelRule] ∧
    c5TravelRule.appliesToCategory = some ("Travel") ∧
    c5TravelRule.appliesToCategory ≠ none ∧
    c5TravelRule.appliesToCategory ≠ some ("") := by
  refine ⟨by decide, rfl, by decide, by decide⟩

def c5RuleA : ApprovalRule :=
  { id := "rA", companyId := "c1", name := "First created", type := "PARALLEL"
    thresholdPercent := none, specificApproverId := none
    appliesToCategory := some "Travel", minAmount := some 10, maxAmount := some 1000
    priority := 5, isActive := true }

def c5RuleB : ApprovalRule :=
  { id := "rB", companyId := "c1", name := "Second created", type := "SEQUENTIAL"
    thresholdPercent := none, specificApproverId := none
    appliesToCategory := none, minAmount := none, maxAmount := none
    priority := 5, isActive := true }

def c5WDb : DB :=
  { companies := [], users := [], expenses := [], approvalSteps := []
    approvalRules := [c5RuleA, c5RuleB], exchangeRates := [] }

def c5WCtx : ApprovalContext := { category := "Travel", amount := 200, userId := "u1" }

/-- Witness for C5 (amended): two matching rules of equal priority 5 — the
governing rule is the one created first, and it is an applicable candidate. -/
theorem c5_rule_matching_witness :
    c5RuleA ∈ getApplicableRules c5WDb ("c1") c5WCtx ∧
    c5RuleA.priority = c5RuleB.priority ∧
    sortByPriorityDesc (getApplicableRules c5WDb ("c1") c5WCtx) = [c5RuleA, c5RuleB] := by
  have h := (c5_rule_matching c5WDb ("c1") c5WCtx (by decide)).2 c5RuleA [c5RuleB] (by decide)
  exact ⟨h.1, rfl, by decide⟩

def cycUserA : User :=
  { id := "a", companyId := "c1", role := "EMPLOYEE", managerId := some "b", isActive := true }

def cycUserB : User :=
  { id := "b", companyId := "c1", role := "MANAGER", managerId := some "a", isActive := true }

def cycUsers : List User := [cycUserA, cycUserB]

/-- Claim C9: the source's manager-chain walk has neither a visited-set nor a
depth bound; on the two-user cycle a → b → a it never terminates — for every
iteration bound the loop is still running — so the claimed bounded traversal
does not exist in the code. -/
theorem c9_manager_walk_diverges_on_cycle :
    (∀ fuel : Nat, getManagerHierarchy cycUsers fuel ("a") = none) ∧
    managerOf cycUsers cycUserA = some cycUserB ∧
    managerOf cycUsers cycUserB = some cycUserA := by
  have hma : managerOf cycUsers cycUserA = some cycUserB := by decide
  have hmb : managerOf cycUsers cycUserB = some cycUserA := by decide
  have key : ∀ fuel : Nat, managerWalk cycUsers fuel (some cycUserA) = none ∧
      managerWalk cycUsers fuel (some cycUserB) = none := by
    intro fuel
    induction fuel with
    | zero => exact ⟨by decide, by decide⟩
    | succ n ih =>
      constructor
      · show managerWalk cycUsers (n + 1) (some cycUserA) = none
        simp only [managerWalk, hma, ih.2]
        rfl
      · show managerWalk cycUsers (n + 1) (some cycUserB) = none
        simp only [managerWalk, hmb, ih.1]
        rfl
  refine ⟨?_, hma, hmb⟩
  intro fuel
  rw [getManagerHierarchy, show findUser cycUsers ("a") = some cycUserA from by decide]
  exact (key fuel).1

def c10DecidedStep : ApprovalStep :=
  { id := "s1", expenseId := "e1", approverId := "m1", sequenceIndex := 1
    status := "approved", actionBy := some "m1", actionAt := some 1, comments := none }

/-- Counterexample to C10: the legacy `updateStatus` write is keyed by the row
id only.  Applied to a step that is already decided (status 'approved', not
'pending'), a write guarded by current status = PENDING would match zero rows
and the caller would observe AlreadyDecided — instead the update commits and
overwrites the earlier decision. -/
theorem c10_write_not_guarded :
    jsUpdateStatus [c10DecidedStep] ("s1") ("rejected") ("m2") none 5 =
      [{ c10DecidedStep with status := "rejected", actionBy := some "m2"
                             actionAt := some 5, comments := none }] ∧
    c10DecidedStep.status ≠ "pending" := by
  refine ⟨by decide, by decide⟩

/-- Claim C10 (amended): both decision writes (the legacy SQL `updateStatus`
and the TypeScript controller's prisma update) are unconditional updates
keyed by step id, with no current-status guard.  Consequently (a) an update
keeps one row per step, so the percentage count never counts a step twice;
(b) the write commits whatever the step's current status is; and (c) when two
decide calls race on one step — both check phases reading the same committed
snapshot, so both return the same PENDING step instead of one failing with
AlreadyDecided — both writes commit and the later silently overwrites the
earlier. -/
theorem c10_race_both_commit :
    (∀ (steps : List ApprovalStep) (stepId st ab : String) (cm : Option String) (now : Int),
        (jsUpdateStatus steps stepId st ab cm now).length = steps.length) ∧
    (∀ (steps : List ApprovalStep) (s : ApprovalStep) (st ab : String)
        (cm : Option String) (now : Int), s ∈ steps →
        { s with status := st, actionBy := some ab, actionAt := some now
                 comments := cm } ∈ jsUpdateStatus steps s.id st ab cm now) ∧
    (∀ (db : DB) (cid uid eid : String) (s : ApprovalStep) (d1 d2 : Decision)
        (cm1 cm2 : Option String) (t1 t2 : Int),
        approveCheck db cid uid eid = Except.ok s →
        ∀ x ∈ (approveWrite (approveWrite db s.id d1 uid cm1 t1) s.id d2 uid cm2 t2).approvalSteps,
          x.id = s.id → x.status = decisionUpper d2) := by
  refine ⟨?_, ?_, ?_⟩
  · intro steps stepId st ab cm now
    simp [jsUpdateStatus]
  · intro steps s st ab cm now hs
    have := List.mem_map_of_mem (fun t : ApprovalStep =>
      if t.id = s.id then
        { t with status := st, actionBy := some ab, actionAt := some now, comments := cm }
      else t) hs
    simpa [jsUpdateStatus] using this
  · intro db cid uid eid s d1 d2 cm1 cm2 t1 t2 _ x hx hid
    simp only [approveWrite] at hx
    obtain ⟨z, -, hz⟩ := List.mem_map.mp hx
    by_cases h1 : z.id = s.id
    · rw [← hz, if_pos h1]
    · rw [← hz, if_neg h1] at hid
      exact absurd hid h1

def c10PendingStep : ApprovalStep :=
  { id := "s1", expenseId := "e1", approverId := "m1", sequenceIndex := 0
    status := "PENDING", actionBy := none, actionAt := none, comments := none }

def c10Expense : Expense :=
  { id := "e1", companyId := "c1", userId := "u1", originalCurrency := "USD"
    originalAmount := 100, convertedAmount := some 100, conversionRate := some 1
    rateTimestamp := some 0, category := "Travel", status := "WAITING_APPROVAL"
    submittedAt := some 0 }

def c10Db : DB :=
  { companies := [{ id := "c1", defaultCurrency := "USD" }], users := []
    expenses := [c10Expense], approvalSteps := [c10PendingStep]
    approvalRules := [], exchangeRates := [] }

def c10FinalStep : ApprovalStep :=
  { id := "s1", expenseId := "e1", approverId := "m1", sequenceIndex := 0
    status := "REJECT", actionBy := some "m1", actionAt := some 2, comments := none }

/-- Witness for C10 (amended): a concrete race on one PENDING step — the
check phase succeeds against the shared snapshot, both writes commit, and the
surviving row carries the second decision. -/
theorem c10_race_both_commit_witness :
    c10FinalStep.status = ("REJECT") ∧
    c10FinalStep ∈ (approveWrite (approveWrite c10Db c10PendingStep.id Decision.approve
      ("m1") none 1) c10PendingStep.id Decision.reject ("m1") none 2).approvalSteps := by
  refine ⟨?_, by decide⟩
  exact c10_race_both_commit.2.2 c10Db ("c1") ("m1") ("e1") c10PendingStep
    Decision.approve Decision.reject none none 1 2 rfl c10FinalStep (by decide) rfl

theorem approveCheck_ok_spec (db : DB) (cid uid eid : String) (step : ApprovalStep)
    (h : approveCheck db cid uid eid = Except.ok step) :
    ∃ e, db.expenses.find? (fun x => decide (x.id = eid)) = some e ∧
      e.companyId = cid ∧ e.status = "WAITING_APPROVAL" := by
  unfold approveCheck at h
  split at h
  · exact absurd h (by simp)
  next e heq =>
    split at h
    next h1 => exact absurd h (by simp)
    next h1 =>
      split at h
      next h2 => exact absurd h (by simp)
      next h2 =>
        split at h
        · exact absurd h (by simp)
        · exact ⟨e, heq, not_ne_iff.mp h1, not_ne_iff.mp h2⟩

theorem approveCheck_notWaiting (db : DB) (cid uid eid : String) (e : Expense)
    (hfind : db.expenses.find? (fun x => decide (x.id = eid)) = some e)
    (hcid : e.companyId = cid) (hst : e.status ≠ "WAITING_APPROVAL") :
    approveCheck db cid uid eid = Except.error AppErr.notWaiting := by
  unfold approveCheck
  rw [hfind]
  simp [hcid, hst]

theorem approveCheck_notAuthorized (db : DB) (cid uid eid : String) (e : Expense)
    (hfind : db.expenses.find? (fun x => decide (x.id = eid)) = some e)
    (hcid : e.companyId = cid) (hst : e.status = "WAITING_APPROVAL")
    (hnone : (sortBySeqAsc (stepsOf db eid)).find?
      (fun s => decide (s.approverId = uid) && decide (s.status = "PENDING")) = none) :
    approveCheck db cid uid eid = Except.error AppErr.notAuthorized := by
  unfold approveCheck
  rw [hfind]
  simp [hcid, hst, hnone]

/-- Claim C6 (amended): every precondition failure of a decide call returns
before any write, leaving the whole store unchanged; an expense that is not
WAITING_APPROVAL — in particular a terminal APPROVED/REJECTED one — fails
with the 400 notWaiting error (the spec's WorkflowClosed), checked first; and
an actor with no PENDING step on the expense fails with the single 403
notAuthorized error, which covers both a non-approver (the spec's
Unauthorized) and the step's own approver after the step was decided (the
spec's AlreadyDecided — no distinct error exists for it). -/
theorem c6_decision_preconditions (db : DB) (cid uid eid : String) (act : Decision)
    (cm : Option String) (now : Int) :
    (∀ err, (approveExpense db cid uid eid act cm now).2 = Except.error err →
        (approveExpense db cid uid eid act cm now).1 = db) ∧
    (∀ e, db.expenses.find? (fun x => decide (x.id = eid)) = some e → e.companyId = cid →
        e.status ≠ "WAITING_APPROVAL" →
        (approveExpense db cid uid eid act cm now).2 = Except.error AppErr.notWaiting) ∧
    (∀ e, db.expenses.find? (fun x => decide (x.id = eid)) = some e → e.companyId = cid →
        e.status = "WAITING_APPROVAL" →
        (sortBySeqAsc (stepsOf db eid)).find?
          (fun s => decide (s.approverId = uid) && decide (s.status = "PENDING")) = none →
        (approveExpense db cid uid eid act cm now).2 = Except.error AppErr.notAuthorized) := by
  refine ⟨?_, ?_, ?_⟩
  · intro err herr
    unfold approveExpense at herr ⊢
    cases hchk : approveCheck db cid uid eid with
    | error e2 => simp [hchk]
    | ok step =>
      exfalso
      rw [hchk] at herr
      obtain ⟨e, hfind, -, -⟩ := approveCheck_ok_spec db cid uid eid step hchk
      have hfind1 : (approveWrite db step.id act uid cm now).expenses.find?
          (fun x => decide (x.id = eid)) = some e := hfind
      simp only [processApproval, hfind1] at herr
      split at herr
      next x msg heq => split at heq <;> simp at heq
      next x db2 fs heq => simp at herr
  · intro e hfind hcid hst
    unfold approveExpense
    rw [approveCheck_notWaiting db cid uid eid e hfind hcid hst]
  · intro e hfind hcid hst hnone
    unfold approveExpense
    rw [approveCheck_notAuthorized db cid uid eid e hfind hcid hst hnone]

def c6Expense : Expense :=
  { id := "e1", companyId := "c1", userId := "u0", originalCurrency := "USD"
    originalAmount := 100, convertedAmount := some 100, conversionRate := some 1
    rateTimestamp := some 0, category := "Travel", status := "WAITING_APPROVAL"
    submittedAt := some 0 }

def c6DecidedStep : ApprovalStep :=
  { id := "s1", expenseId := "e1", approverId := "M", sequenceIndex := 0
    status := "APPROVED", actionBy := some "M", actionAt := some 1, comments := none }

def c6Db : DB :=
  { companies := [{ id := "c1", defaultCurrency := "USD" }], users := []
    expenses := [c6Expense], approvalSteps := [c6DecidedStep]
    approvalRules := [], exchangeRates := [] }

/-- Counterexample to C6: the step's own approver M, retrying after the step
was already decided (status APPROVED, not PENDING), receives exactly the same
403 notAuthorized error that a complete stranger X receives — the controller
has no distinct AlreadyDecided failure. -/
theorem c6_already_decided_is_not_distinct :
    (approveExpense c6Db ("c1") ("M") ("e1") Decision.reject none 9).2 =
      Except.error AppErr.notAuthorized ∧
    (approveExpense c6Db ("c1") ("X") ("e1") Decision.reject none 9).2 =
      Except.error AppErr.notAuthorized ∧
    c6DecidedStep.approverId = "M" ∧ c6DecidedStep.status ≠ "PENDING" := by
  refine ⟨rfl, rfl, rfl, by decide⟩

def c6TerminalExpense : Expense :=
  { id := "e1", companyId := "c1", userId := "u0", originalCurrency := "USD"
    originalAmount := 100, convertedAmount := some 100, conversionRate := some 1
    rateTimestamp := some 0, category := "Travel", status := "APPROVED"
    submittedAt := some 0 }

def c6TerminalDb : DB :=
  { companies := [{ id := "c1", defaultCurrency := "USD" }], users := []
    expenses := [c6TerminalExpense]
    approvalSteps := [{ id := "s1", expenseId := "e1", approverId := "M"
                        sequenceIndex := 0, status := "PENDING", actionBy := none
                        actionAt := none, comments := none }]
    approvalRules := [], exchangeRates := [] }

/-- Witness for C6 (amended): on a terminal (APPROVED) expense, a decide call
by the pending step's approver fails with notWaiting and leaves the store
untouched. -/
theorem c6_decision_preconditions_witness :
    (approveExpense c6TerminalDb ("c1") ("M") ("e1") Decision.approve none 3).2 =
      Except.error AppErr.notWaiting ∧
    (approveExpense c6TerminalDb ("c1") ("M") ("e1") Decision.approve none 3).1 =
      c6TerminalDb := by
  have h := c6_decision_preconditions c6TerminalDb ("c1") ("M") ("e1")
    Decision.approve none 3
  have hw := h.2.1 c6TerminalExpense rfl rfl (by decide)
  exact ⟨hw, h.1 AppErr.notWaiting hw⟩

theorem find?_map_congr {α : Type} (f : α → α) (p : α → Bool)
    (hp : ∀ x, p (f x) = p x) :
    ∀ l : List α, (l.map f).find? p = (l.find? p).map f := by
  intro l
  induction l with
  | nil => rfl
  | cons a l ih =>
    simp only [List.map_cons, List.find?, hp]
    cases h : p a <;> simp [h, ih]

theorem processApproval_expenses (db : DB) (eid : String) (d2 : DB) (st : String)
    (h : processApproval db eid = Except.ok (d2, st)) :
    ∀ x ∈ d2.expenses, ∃ y ∈ db.expenses, x.id = y.id ∧
      x.convertedAmount = y.convertedAmount ∧ x.conversionRate = y.conversionRate ∧
      x.rateTimestamp = y.rateTimestamp := by
  unfold processApproval at h
  split at h
  · simp at h
  next e heq =>
    split at h
    · rw [Except.ok.injEq, Prod.mk.injEq] at h
      obtain ⟨h1, -⟩ := h
      subst h1
      intro x hx
      exact ⟨x, hx, rfl, rfl, rfl, rfl⟩
    next rule rest heq2 =>
      rw [Except.ok.injEq] at h
      unfold persistEvaluation at h
      split at h <;>
        rw [Prod.mk.injEq] at h <;>
        obtain ⟨h1, -⟩ := h
      · subst h1
        intro x hx
        exact ⟨x, hx, rfl, rfl, rfl, rfl⟩
      · subst h1
        intro x hx
        simp only [updateExpenseStatus] at hx
        obtain ⟨y, hy, hfy⟩ := List.mem_map.mp hx
        by_cases hid : y.id = eid
        · rw [if_pos hid] at hfy
          exact ⟨y, hy, by rw [← hfy], by rw [← hfy], by rw [← hfy], by rw [← hfy]⟩
        · rw [if_neg hid] at hfy
          exact ⟨y, hy, by rw [← hfy], by rw [← hfy], by rw [← hfy], by rw [← hfy]⟩

theorem approveExpense_expenses (db : DB) (cid uid eid : String) (act : Decision)
    (cm : Option String) (now : Int) :
    ∀ x ∈ (approveExpense db cid uid eid act cm now).1.expenses,
      ∃ y ∈ db.expenses, x.id = y.id ∧ x.convertedAmount = y.convertedAmount ∧
        x.conversionRate = y.conversionRate ∧ x.rateTimestamp = y.rateTimestamp := by
  intro x hx
  unfold approveExpense at hx
  split at hx
  · exact ⟨x, hx, rfl, rfl, rfl, rfl⟩
  next step heq =>
    split at hx
    · exact ⟨x, hx, rfl, rfl, rfl, rfl⟩
    next db2 fs heq2 =>
      obtain ⟨y, hy, h1, h2, h3, h4⟩ :=
        processApproval_expenses (approveWrite db step.id act uid cm now) eid db2 fs heq2 x hx
      exact ⟨y, hy, h1, h2, h3, h4⟩

theorem submit_ok_cases (db : DB) (fuel : Nat) (cid uid eid : String) (now : Int)
    (spot : Option ℚ) (db' : DB) (upd e : Expense) (comp : Company)
    (hsub : submitExpense db fuel cid uid eid now spot = some (db', Except.ok upd))
    (hfind : db.expenses.find? (fun x => decide (x.id = eid)) = some e)
    (hcomp : db.companies.find? (fun c => decide (c.id = e.companyId)) = some comp) :
    ∃ convAmt rate ts newRates steps,
      upd = submittedExpense e now convAmt rate ts ∧
      db' = { submitWrite db eid upd newRates with
                approvalSteps := db.approvalSteps ++ steps } ∧
      e.companyId = cid ∧ e.userId = uid ∧ e.status = "DRAFT" ∧
      ((e.originalCurrency = comp.defaultCurrency ∧ convAmt = e.originalAmount ∧
          rate = 1 ∧ ts = now ∧ newRates = db.exchangeRates) ∨
       (e.originalCurrency ≠ comp.defaultCurrency ∧ ∃ c,
          getCachedRate db.exchangeRates now e.originalCurrency comp.defaultCurrency = some c ∧
          rate = c.rate ∧ convAmt = round2 (e.originalAmount * c.rate) ∧ ts = c.timestamp ∧
          newRates = db.exchangeRates) ∨
       (e.originalCurrency ≠ comp.defaultCurrency ∧ ∃ r,
          getCachedRate db.exchangeRates now e.originalCurrency comp.defaultCurrency = none ∧
          spot = some r ∧ rate = r ∧ convAmt = round2 (e.originalAmount * r) ∧ ts = now ∧
          newRates = db.exchangeRates ++
            [{ baseCurrency := e.originalCurrency, targetCurrency := comp.defaultCurrency
               rate := r, timestamp := now }])) := by
  unfold submitExpense at hsub
  split at hsub
  next heq => rw [hfind] at heq; exact absurd heq (by simp)
  next e' heq =>
    obtain rfl : e = e' := Option.some.inj (hfind.symm.trans heq)
    split at hsub
    next hc1 => simp at hsub
    next hc1 =>
      split at hsub
      next hc2 => simp at hsub
      next hc2 =>
        split at hsub
        next hc3 => simp at hsub
        next hc3 =>
          split at hsub
          next heqc => rw [hcomp] at heqc; exact absurd heqc (by simp)
          next comp' heqc =>
            obtain rfl : comp = comp' := Option.some.inj (hcomp.symm.trans heqc)
            split at hsub
            next hconv => simp at hsub
            next convAmt rate ts newRates hconv =>
              split at hsub
              · simp at hsub
              next msg heqs => simp at hsub
              next steps heqs =>
                rw [Option.some.injEq, Prod.mk.injEq, Except.ok.injEq] at hsub
                obtain ⟨hdb', hupd⟩ := hsub
                subst hupd
                refine ⟨convAmt, rate, ts, newRates, steps, rfl, hdb'.symm,
                  not_ne_iff.mp hc1, not_ne_iff.mp hc2, not_ne_iff.mp hc3, ?_⟩
                by_cases hsame : e.originalCurrency = comp.defaultCurrency
                · rw [if_pos hsame] at hconv
                  rw [Except.ok.injEq, Prod.mk.injEq, Prod.mk.injEq, Prod.mk.injEq] at hconv
                  obtain ⟨h1, h2, h3, h4⟩ := hconv
                  exact Or.inl ⟨hsame, h1.symm, h2.symm, h3.symm, h4.symm⟩
                · rw [if_neg hsame] at hconv
                  unfold convertCurrency at hconv
                  split at hconv
                  next cached heqr =>
                    simp only [Except.map] at hconv
                    rw [Except.ok.injEq, Prod.mk.injEq, Prod.mk.injEq, Prod.mk.injEq] at hconv
                    obtain ⟨h1, h2, h3, h4⟩ := hconv
                    exact Or.inr (Or.inl ⟨hsame, cached, heqr, h2.symm, h1.symm, h3.symm, h4.symm⟩)
                  next heqr =>
                    split at hconv
                    next heqspot => simp [Except.map] at hconv
                    next x2 x3 rv =>
                      simp only [Except.map] at hconv
                      rw [Except.ok.injEq, Prod.mk.injEq, Prod.mk.injEq, Prod.mk.injEq] at hconv
                      obtain ⟨h1, h2, h3, h4⟩ := hconv
                      exact Or.inr (Or.inr ⟨hsame, rv, heqr, rfl, h2.symm, h1.symm,
                        h3.symm, h4.symm⟩)

/-- Claim C7: at submission, same-currency expenses store rate 1 and an
unchanged amount; otherwise the stored convertedAmount is amount*rate rounded
to 2 decimals with the rate from a cache entry fresher than 1 hour (else the
freshly fetched spot rate); and the stored conversion fields are frozen —
every expense row with this id in the committed store carries them, later
decide calls never alter them (they never consult a rate), and resubmission
at any later time with any later spot rate is refused with notDraft, leaving
the store unchanged. -/
theorem c7_conversion_freeze (db : DB) (fuel : Nat) (cid uid eid : String) (now : Int)
    (spot : Option ℚ) (db' : DB) (upd e : Expense) (comp : Company)
    (hsub : submitExpense db fuel cid uid eid now spot = some (db', Except.ok upd))
    (hfind : db.expenses.find? (fun x => decide (x.id = eid)) = some e)
    (hcomp : db.companies.find? (fun c => decide (c.id = e.companyId)) = some comp) :
    ((e.originalCurrency = comp.defaultCurrency ∧ upd.conversionRate = some 1 ∧
        upd.convertedAmount = some e.originalAmount) ∨
     (e.originalCurrency ≠ comp.defaultCurrency ∧ ∃ c,
        getCachedRate db.exchangeRates now e.originalCurrency comp.defaultCurrency = some c ∧
        upd.conversionRate = some c.rate ∧
        upd.convertedAmount = some (round2 (e.originalAmount * c.rate)) ∧
        upd.rateTimestamp = some c.timestamp) ∨
     (e.originalCurrency ≠ comp.defaultCurrency ∧ ∃ r,
        getCachedRate db.exchangeRates now e.originalCurrency comp.defaultCurrency = none ∧
        spot = some r ∧ upd.conversionRate = some r ∧
        upd.convertedAmount = some (round2 (e.originalAmount * r)) ∧
        upd.rateTimestamp = some now)) ∧
    (∀ x ∈ db'.expenses, x.id = eid →
        x.convertedAmount = upd.convertedAmount ∧ x.conversionRate = upd.conversionRate ∧
        x.rateTimestamp = upd.rateTimestamp) ∧
    (∀ (cid2 uid2 : String) (act : Decision) (cm : Option String) (now2 : Int) x,
        x ∈ (approveExpense db' cid2 uid2 eid act cm now2).1.expenses → x.id = eid →
        x.convertedAmount = upd.convertedAmount ∧ x.conversionRate = upd.conversionRate ∧
        x.rateTimestamp = upd.rateTimestamp) ∧
    (∀ (fuel2 : Nat) (now2 : Int) (spot2 : Option ℚ),
        submitExpense db' fuel2 cid uid eid now2 spot2 =
          some (db', Except.error AppErr.notDraft)) := by
  obtain ⟨convAmt, rate, ts, newRates, steps, hupd, hdb', hcid, huid, hst, hcases⟩ :=
    submit_ok_cases db fuel cid uid eid now spot db' upd e comp hsub hfind hcomp
  have heid : e.id = eid := by simpa using List.find?_some hfind
  have hupdid : upd.id = eid := by rw [hupd]; exact heid
  have hfrozen : ∀ x ∈ db'.expenses, x.id = eid →
      x.convertedAmount = upd.convertedAmount ∧ x.conversionRate = upd.conversionRate ∧
      x.rateTimestamp = upd.rateTimestamp := by
    intro x hx hid
    rw [hdb'] at hx
    simp only [submitWrite, List.mem_map] at hx
    obtain ⟨y, hy, hfy⟩ := hx
    have hfy2 : (if y.id = eid then upd else y) = x := hfy
    by_cases hidy : y.id = eid
    · rw [if_pos hidy] at hfy2
      rw [← hfy2]
      exact ⟨rfl, rfl, rfl⟩
    · rw [if_neg hidy] at hfy2
      rw [← hfy2] at hid
      exact absurd hid hidy
  have hfinddb' : db'.expenses.find? (fun x => decide (x.id = eid)) = some upd := by
    have hp : ∀ x : Expense,
        (fun x => decide (x.id = eid)) ((fun x => if x.id = eid then upd else x) x) =
        (fun x => decide (x.id = eid)) x := by
      intro x
      show decide ((if x.id = eid then upd else x).id = eid) = decide (x.id = eid)
      by_cases hx : x.id = eid
      · rw [if_pos hx, hupdid, hx]
      · rw [if_neg hx]
    have hmap := find?_map_congr (fun x => if x.id = eid then upd else x)
      (fun x => decide (x.id = eid)) hp db.expenses
    rw [hfind, Option.map_some'] at hmap
    have hmap2 : List.find? (fun x => decide (x.id = eid))
        (db.expenses.map (fun x => if x.id = eid then upd else x)) =
        some (if e.id = eid then upd else e) := hmap
    rw [if_pos heid] at hmap2
    rw [hdb']
    exact hmap2
  refine ⟨?_, hfrozen, ?_, ?_⟩
  · rcases hcases with ⟨hsame, h1, h2, h3, -⟩ | ⟨hne, c, hgc, hr, hca, hts, -⟩ |
      ⟨hne, r, hgc, hspot, hr, hca, hts, -⟩
    · exact Or.inl ⟨hsame, by rw [hupd]; simp [submittedExpense, h2],
        by rw [hupd]; simp [submittedExpense, h1]⟩
    · exact Or.inr (Or.inl ⟨hne, c, hgc, by rw [hupd]; simp [submittedExpense, hr],
        by rw [hupd]; simp [submittedExpense, hca], by rw [hupd]; simp [submittedExpense, hts]⟩)
    · exact Or.inr (Or.inr ⟨hne, r, hgc, hspot, by rw [hupd]; simp [submittedExpense, hr],
        by rw [hupd]; simp [submittedExpense, hca], by rw [hupd]; simp [submittedExpense, hts]⟩)
  · intro cid2 uid2 act cm now2 x hx hid
    obtain ⟨y, hy, hyid, hca, hcr, hts2⟩ :=
      approveExpense_expenses db' cid2 uid2 eid act cm now2 x hx
    obtain ⟨f1, f2, f3⟩ := hfrozen y hy (hyid.symm.trans hid)
    exact ⟨hca.trans f1, hcr.trans f2, hts2.trans f3⟩
  · intro fuel2 now2 spot2
    have h1 : upd.companyId = cid := by rw [hupd]; simpa [submittedExpense] using hcid
    have h2 : upd.userId = uid := by rw [hupd]; simpa [submittedExpense] using huid
    have h3 : upd.status ≠ "DRAFT" := by rw [hupd]; simp [submittedExpense]
    simp only [submitExpense, hfinddb']
    rw [if_neg (not_ne_iff.mpr h1), if_neg (not_ne_iff.mpr h2), if_pos h3]

def c7Rate : ExchangeRate :=
  { baseCurrency := "EUR", targetCurrency := "USD", rate := 11 / 10, timestamp := 3600000 }

def c7Expense : Expense :=
  { id := "e1", companyId := "c1", userId := "u1", originalCurrency := "EUR"
    originalAmount := 100, convertedAmount := none, conversionRate := none
    rateTimestamp := none, category := "Travel", status := "DRAFT", submittedAt := none }

def c7Db : DB :=
  { companies := [{ id := "c1", defaultCurrency := "USD" }], users := []
    expenses := [c7Expense], approvalSteps := [], approvalRules := []
    exchangeRates := [c7Rate] }

def c7Upd : Expense :=
  submittedExpense c7Expense 3600000 (round2 (100 * (11 / 10))) (11 / 10) 3600000

def c7DbAfter : DB := submitWrite c7Db ("e1") c7Upd [c7Rate]

/-- Witness for C7: submitting 100 EUR into a USD company with cached rate
1.10 stores convertedAmount 110.00 and rate 1.10, and a later resubmission
attempt under a different live rate is refused with the store unchanged. -/
theorem c7_conversion_freeze_witness :
    c7Upd.convertedAmount = some 110 ∧ c7Upd.conversionRate = some (11 / 10) ∧
    submitExpense c7DbAfter 5 ("c1") ("u1") ("e1") 7200000 (some 2) =
      some (c7DbAfter, Except.error AppErr.notDraft) := by
  have h := c7_conversion_freeze c7Db 5 ("c1") ("u1") ("e1") 3600000 none c7DbAfter
    c7Upd c7Expense { id := "c1", defaultCurrency := "USD" } rfl rfl rfl
  refine ⟨?_, ?_, h.2.2.2 5 7200000 (some 2)⟩
  · rcases h.1 with ⟨hsame, -, -⟩ | ⟨-, c, hgc, hrate, hca, -⟩ | ⟨-, r, hgc, -⟩
    · exact absurd hsame (by decide)
    · obtain rfl : c = c7Rate := Option.some.inj (hgc.symm.trans rfl)
      exact hca.trans (by norm_num [c7Expense, c7Rate, round2, round_eq])
    · exact absurd hgc (by decide)
  · rcases h.1 with ⟨hsame, -, -⟩ | ⟨-, c, hgc, hrate, hca, -⟩ | ⟨-, r, hgc, -⟩
    · exact absurd hsame (by decide)
    · obtain rfl : c = c7Rate := Option.some.inj (hgc.symm.trans rfl)
      exact hrate.trans rfl
    · exact absurd hgc (by decide)

def c8Rule : ApprovalRule :=
  { id := "r8", companyId := "c1", name := "Broken specific", type := "SPECIFIC"
    thresholdPercent := none, specificApproverId := none
    appliesToCategory := none, minAmount := none, maxAmount := none
    priority := 1, isActive := true }

def c8Expense : Expense :=
  { id := "e8", companyId := "c1", userId := "u1", originalCurrency := "USD"
    originalAmount := 100, convertedAmount := none, conversionRate := none
    rateTimestamp := none, category := "Travel", status := "DRAFT", submittedAt := none }

def c8Db : DB :=
  { companies := [{ id := "c1", defaultCurrency := "USD" }], users := []
    expenses := [c8Expense], approvalSteps := [], approvalRules := [c8Rule]
    exchangeRates := [] }

def c8ExpenseAfter : Expense := submittedExpense c8Expense 0 100 1 0

def c8DbAfter : DB := submitWrite c8Db ("e8") c8ExpenseAfter []

/-- Counterexample to C8: a matching SPECIFIC rule with no approver makes
step creation throw after the expense update has already committed — the
failed submission leaves the expense WAITING_APPROVAL with conversion fields
written (not DRAFT with no conversion fields, as claimed). -/
theorem c8_submit_not_atomic :
    submitExpense c8Db 5 ("c1") ("u1") ("e8") 0 none =
      some (c8DbAfter, Except.error (AppErr.engine ("Specific approver not defined in rule"))) ∧
    c8Expense.status = ("DRAFT") ∧
    c8ExpenseAfter.status = ("WAITING_APPROVAL") ∧
    c8ExpenseAfter.convertedAmount = some 100 ∧
    c8DbAfter.approvalSteps = [] := by
  refine ⟨rfl, rfl, rfl, rfl, rfl⟩

/-- Claim C8 (amended): a rate-fetch failure does abort the submission with
the expense left DRAFT and the whole store unchanged; but submission is not
atomic — the DRAFT to WAITING_APPROVAL transition and the conversion-field
write commit before approval-step creation runs, so an engine failure during
step creation leaves every expense row with this id WAITING_APPROVAL with
conversion fields written, while no step of this submission is persisted. -/
theorem c8_submit_partial_commit :
    (∀ (db : DB) (fuel : Nat) (cid uid eid : String) (now : Int) (e : Expense)
        (comp : Company),
        db.expenses.find? (fun x => decide (x.id = eid)) = some e →
        e.companyId = cid → e.userId = uid → e.status = "DRAFT" →
        db.companies.find? (fun c => decide (c.id = e.companyId)) = some comp →
        e.originalCurrency ≠ comp.defaultCurrency →
        getCachedRate db.exchangeRates now e.originalCurrency comp.defaultCurrency = none →
        submitExpense db fuel cid uid eid now none =
          some (db, Except.error AppErr.conversionUnavailable)) ∧
    (∀ (db : DB) (fuel : Nat) (cid uid eid : String) (now : Int) (spot : Option ℚ)
        (db' : DB) (msg : String),
        submitExpense db fuel cid uid eid now spot =
          some (db', Except.error (AppErr.engine msg)) →
        (∀ x ∈ db'.expenses, x.id = eid →
            x.status = "WAITING_APPROVAL" ∧ x.convertedAmount ≠ none) ∧
        db'.approvalSteps = db.approvalSteps) := by
  constructor
  · intro db fuel cid uid eid now e comp hfind hcid huid hdraft hcomp hdiff hnone
    simp only [submitExpense, hfind, hcomp]
    rw [if_neg (not_ne_iff.mpr hcid), if_neg (not_ne_iff.mpr huid),
      if_neg (not_ne_iff.mpr hdraft), if_neg hdiff]
    unfold convertCurrency
    rw [hnone]
    rfl
  · intro db fuel cid uid eid now spot db' msg hsub
    unfold submitExpense at hsub
    split at hsub
    · simp at hsub
    next e heq =>
      split at hsub
      next => simp at hsub
      next hc1 =>
        split at hsub
        next => simp at hsub
        next hc2 =>
          split at hsub
          next => simp at hsub
          next hc3 =>
            split at hsub
            · simp at hsub
            next comp heqc =>
              split at hsub
              next hconv => simp at hsub
              next convAmt rate ts newRates hconv =>
                split at hsub
                · simp at hsub
                next msg2 heqs =>
                  rw [Option.some.injEq, Prod.mk.injEq] at hsub
                  obtain ⟨hdb', -⟩ := hsub
                  subst hdb'
                  constructor
                  · intro x hx hid
                    simp only [submitWrite, List.mem_map] at hx
                    obtain ⟨y, hy, hfy⟩ := hx
                    have hfy2 : (if y.id = eid then
                        submittedExpense e now convAmt rate ts else y) = x := hfy
                    by_cases hidy : y.id = eid
                    · rw [if_pos hidy] at hfy2
                      rw [← hfy2]
                      exact ⟨rfl, by simp [submittedExpense]⟩
                    · rw [if_neg hidy] at hfy2
                      rw [← hfy2] at hid
                      exact absurd hid hidy
                  · rfl
                next steps heqs => simp at hsub

def c8WExpense : Expense :=
  { id := "e9", companyId := "c1", userId := "u1", originalCurrency := "EUR"
    originalAmount := 100, convertedAmount := none, conversionRate := none
    rateTimestamp := none, category := "Travel", status := "DRAFT", submittedAt := none }

def c8WDb : DB :=
  { companies := [{ id := "c1", defaultCurrency := "USD" }], users := []
    expenses := [c8WExpense], approvalSteps := [], approvalRules := []
    exchangeRates := [] }

/-- Witness for C8 (amended): with an empty rate cache and a failing external
source, submission aborts with conversionUnavailable and the store is exactly
the input store. -/
theorem c8_submit_partial_commit_witness :
    submitExpense c8WDb 5 ("c1") ("u1") ("e9") 0 none =
      some (c8WDb, Except.error AppErr.conversionUnavailable) :=
  c8_submit_partial_commit.1 c8WDb 5 ("c1") ("u1") ("e9") 0 c8WExpense
    { id := "c1", defaultCurrency := "USD" } rfl rfl rfl rfl rfl (by decide) rfl

def c1User : User :=
  { id := "u1", companyId := "c1", role := "EMPLOYEE", managerId := none, isActive := true }

def c1Expense : Expense :=
  { id := "e1", companyId := "c1", userId := "u1", originalCurrency := "USD"
    originalAmount := 100, convertedAmount := none, conversionRate := none
    rateTimestamp := none, category := "Travel", status := "DRAFT", submittedAt := none }

def c1Db : DB :=
  { companies := [{ id := "c1", defaultCurrency := "USD" }], users := [c1User]
    expenses := [c1Expense], approvalSteps := [], approvalRules := []
    exchangeRates := [] }

def c1ExpenseAfter : Expense := submittedExpense c1Expense 0 100 1 0

def c1DbAfter : DB := submitWrite c1Db ("e1") c1ExpenseAfter []

/-- Claim C1: with no matching approval rule, submission creates zero steps —
but the TypeScript backend leaves the expense in WAITING_APPROVAL instead of
auto-approving it: `createApprovalSteps` merely logs a warning and returns,
and since no step exists, every later decide call fails notAuthorized, so the
expense is permanently stuck and never reaches APPROVED (the legacy
JavaScript service and the spec both auto-approve, so this is a defect of the
TypeScript submit path). -/
theorem c1_no_rule_no_auto_approve :
    submitExpense c1Db 5 ("c1") ("u1") ("e1") 0 none =
      some (c1DbAfter, Except.ok c1ExpenseAfter) ∧
    c1ExpenseAfter.status = ("WAITING_APPROVAL") ∧
    c1ExpenseAfter.status ≠ ("APPROVED") ∧
    c1DbAfter.approvalSteps = [] ∧
    (∀ (uid : String) (act : Decision) (cm : Option String) (now2 : Int),
        (approveExpense c1DbAfter ("c1") uid ("e1") act cm now2).2 =
          Except.error AppErr.notAuthorized) := by
  refine ⟨rfl, rfl, by decide, rfl, ?_⟩
  intro uid act cm now2
  have hchk := approveCheck_notAuthorized c1DbAfter ("c1") uid ("e1") c1ExpenseAfter
    rfl rfl rfl rfl
  simp only [approveExpense, hchk]

end ExpenseMgmt
